import Mathlib

/-!
Verification of the summary-issues GitHub Action (src/main.go) against its
specification.  The Go program is embedded shallowly: pure helpers become Lean
functions on `List Char` / `String`, and the effectful pipeline (GraphQL
searches and issue updates) is embedded as functions from an `Oracle` (the
endpoint's behaviour) to a trace of issued calls paired with an
`Except String` result, mirroring Go's `(value, error)` returns.
-/

set_option maxRecDepth 8000

namespace Summary

/-- Models `type label struct { Name string }` from src/main.go. -/
structure Label where
  name : String
deriving DecidableEq, Repr

/-- Models `func (l labels) contains(s string) bool`: a linear scan for a label
with the given name. -/
def contains : List Label → String → Bool
  | [], _ => false
  | n :: rest, s => if n.name = s then true else contains rest s

/-- Models `func (l labels) nonSummaryLabels() labels`: keeps, in order, the
labels whose name is not "summary". -/
def nonSummaryLabels : List Label → List Label
  | [] => []
  | lab :: rest =>
    if lab.name ≠ ("summary") then lab :: nonSummaryLabels rest
    else nonSummaryLabels rest

/-- Models the escaping done by `fmt.Sprintf("%q", ...)` for one character:
quotation marks and backslashes are escaped.  Control characters, which Go
would also escape, do not occur in any label name this development evaluates. -/
def goQuoteChar (c : Char) : List Char :=
  if c = '"' then ['\\', '"']
  else if c = '\\' then ['\\', '\\']
  else [c]

/-- Models `fmt.Sprintf("%q", s)`: the string wrapped in double quotes, inner
characters escaped. -/
def goQuote (s : String) : String :=
  ⟨'"' :: (s.data.flatMap goQuoteChar) ++ ['"']⟩

/-- Models `func (l labels) queryFilter() string`: quote each non-summary label
name, return "" when there are none, else the comma-joined list behind a
`label:` key. -/
def queryFilter (l : List Label) : String :=
  let ls := (nonSummaryLabels l).map (fun lab => goQuote lab.name)
  if ls = [] then ("")
  else ("label:") ++ String.intercalate (",") ls

/-- Models `type actor struct { Login string }`. -/
structure Actor where
  login : String
deriving DecidableEq, Repr

/-- Models `type comment struct`.  The `UpdatedAt time.Time` field is carried
as the string the renderer prints for it (`Format("2006-01-02 15:04:05 MST")`);
timestamps take no other part in the logic. -/
structure Comment where
  author : Actor
  body : String
  updatedAt : String
deriving DecidableEq, Repr

/-- Models `func (c comments) lastMatch(r *regexp.Regexp) *comment`: the
`for j := len(c) - 1; j >= 0; j--` loop scans from the newest comment backward
and returns the first whose body matches; `matchStr` stands for `r.MatchString`. -/
def lastMatch (c : List Comment) (matchStr : String → Bool) : Option Comment :=
  c.reverse.find? (fun x => matchStr x.body)

/-- Models `\w` of the Go patterns `h1` and `h2` (RE2's Perl classes are
ASCII-only): letters, digits and the underscore. -/
def isWordChar (c : Char) : Bool :=
  c.isAlphanum || c = '_'

/-- Decides whether a character list is free of '#', the requirement the
`[^#]*` capture groups of `h1` and `h2` place on the rest of a line. -/
def noHash : List Char → Bool
  | [] => true
  | c :: r => if c = '#' then false else noHash r

/-- Models one line of `h1.ReplaceAllString(s, "###$1")` where
`h1 = (?m)^\w*#([^#]*)$`: when, after the greedy `\w*` prefix, the line is `#`
followed by hash-free text `r` (the `$1` capture), the whole line becomes
`###` ++ `r`; otherwise the line is unchanged.  Backtracking `\w*` cannot turn
a failure into a match: shortening it leaves a word character, never `#`, in
front of the `#` literal. -/
def h1line (l : List Char) : List Char :=
  match l.dropWhile isWordChar with
  | c :: r => if c = '#' ∧ noHash r = true then '#' :: '#' :: '#' :: r else l
  | [] => l

/-- Models one line of `h2.ReplaceAllString(s, "###$1")` where
`h2 = (?m)^\w*##([^#]*)$`, analogously to `h1line`. -/
def h2line (l : List Char) : List Char :=
  match l.dropWhile isWordChar with
  | c1 :: c2 :: r =>
    if c1 = '#' ∧ c2 = '#' ∧ noHash r = true then '#' :: '#' :: '#' :: r else l
  | _ => l

/-- Splits a character list at newline characters; with `(?m)` the anchors
`^` and `$` of `h1`/`h2` match exactly at these boundaries. -/
def splitLines : List Char → List (List Char)
  | [] => [[]]
  | c :: r =>
    if c = '\n' then [] :: splitLines r
    else
      match splitLines r with
      | [] => [[c]]
      | l :: ls => (c :: l) :: ls

/-- Joins lines back with newline characters (inverse of `splitLines`). -/
def joinLines : List (List Char) → List Char
  | [] => []
  | [l] => l
  | l :: ls => l ++ '\n' :: joinLines ls

/-- Models `h2.ReplaceAllString(s, "###$1")` over the whole text.  Every match
of the `(?m)`-anchored pattern starts at a line start and ends at a line end,
and any line it spans beyond the first is hash-free and copied verbatim inside
the `$1` capture, so the pass equals rewriting each line independently. -/
def h2pass (s : List Char) : List Char :=
  joinLines ((splitLines s).map h2line)

/-- Models `h1.ReplaceAllString(s, "###$1")` over the whole text, like
`h2pass`. -/
def h1pass (s : List Char) : List Char :=
  joinLines ((splitLines s).map h1line)

/-- Models `func replaceHeadings(s string) string`: the `h2` rewrite runs
first, then the `h1` rewrite. -/
def replaceHeadingsL (s : List Char) : List Char :=
  h1pass (h2pass s)

/-- String wrapper of `replaceHeadingsL`. -/
def replaceHeadings (s : String) : String :=
  ⟨replaceHeadingsL s.data⟩

/-- Models `type graphqlIssue struct`; the `Labels.Nodes` and `Comments.Nodes`
wrappers of the GraphQL shape are flattened into the lists they carry. -/
structure GraphqlIssue where
  id : String
  url : String
  title : String
  body : String
  author : Actor
  labels : List Label
  comments : List Comment
deriving DecidableEq, Repr

/-- Models `type restIssue struct` (the webhook payload shape of an issue). -/
structure RestIssue where
  id : String
  title : String
  body : String
  author : Actor
  labels : List Label
deriving DecidableEq, Repr

/-- Models `type event struct`.  The `Changes` and `Comment` fields are never
read by the logic and are omitted; `Issue` and `Label` are pointers in Go,
dereferenced only on branches where the payload carries them, and are modelled
as plain values. -/
structure Event where
  name : String
  action : String
  issue : RestIssue
  label : Label
deriving DecidableEq, Repr

/-- Models `type issue struct` (the internal shape handed to the renderer). -/
structure Issue where
  id : String
  title : String
  labels : List Label
deriving DecidableEq, Repr

/-- Models `type options struct` together with the environment the functions
read: the compiled `summaryCommentRegex` is carried as its source text
(`re.String()`) plus its match function (`re.MatchString`, field `matchStr`), and `serverURL` is
the `GITHUB_SERVER_URL` value read by `searchURL`. -/
structure Options where
  user : String
  event : Event
  summaryCommentRegex : String
  matchStr : String → Bool
  serverURL : String

/-- Returns the upper-case hexadecimal digit for a value below 16, as used by
Go's URL escaping. -/
def upperHexDigit (n : Nat) : Char :=
  if n < 10 then Char.ofNat (48 + n) else Char.ofNat (55 + n)

/-- Models `url.QueryEscape` on one character: unreserved characters are kept,
a space becomes '+', everything else is percent-encoded.  Go escapes per UTF-8
byte; every query this development evaluates is ASCII. -/
def queryEscapeChar (c : Char) : List Char :=
  if isWordChar c || c = '-' || c = '.' || c = '~' then [c]
  else if c = ' ' then ['+']
  else ['%', upperHexDigit (c.toNat / 16 % 16), upperHexDigit (c.toNat % 16)]

/-- Models `func searchURL(query string) string`:
`GITHUB_SERVER_URL + "/search?" + url.Values{"q": {query}}.Encode()`. -/
def searchURL (serverURL query : String) : String :=
  serverURL ++ ("/search?") ++ ("q=") ++ ⟨query.data.flatMap queryEscapeChar⟩

/-- Action records one externally visible GraphQL call: a search query or an
issue-body update (the `updateIssue` mutation). -/
inductive Action where
  | search (query : String)
  | update (id : String) (body : String)
deriving DecidableEq, Repr

/-- Oracle stands for the GitHub GraphQL endpoint: what each search query
returns and how each update mutation responds.  An `.error` value is a
transport- or API-level failure, carried as its message string exactly as
`graphql` returns it. -/
structure Oracle where
  search : String → Except String (List GraphqlIssue)
  update : String → String → Except String Unit

/-- Run pairs the trace of issued GraphQL calls with the result; Go's
`(value, error)` return becomes `Except String`. -/
abbrev Run (α : Type) := List Action × Except String α

/-- Sequences two effectful steps the way Go's `if err != nil { return err }`
idiom does: on failure the first trace and the error are returned unchanged
and the continuation never runs. -/
def runBind {α β : Type} (a : Run α) (f : α → Run β) : Run β :=
  match a.2 with
  | .error e => (a.1, .error e)
  | .ok v => (a.1 ++ (f v).1, (f v).2)

/-- Models the query string built in `getSummaryIssues`:
`fmt.Sprintf("is:open user:%s label:summary %s", user, labels.queryFilter())`. -/
def summaryQuery (user : String) (ls : List Label) : String :=
  ("is:open user:") ++ user ++ (" label:summary ") ++ queryFilter ls

/-- Models `func getSummaryIssues(user string, labels labels)`. -/
def getSummaryIssues (o : Oracle) (user : String) (ls : List Label) :
    Run (List GraphqlIssue) :=
  ([Action.search (summaryQuery user ls)], o.search (summaryQuery user ls))

/-- Models `func searchIssues(query string)`. -/
def searchIssues (o : Oracle) (query : String) : Run (List GraphqlIssue) :=
  ([Action.search query], o.search query)

/-- Models `func summarizedIssues(user string, si issue)`: with an empty
filter it returns `nil, nil` without issuing any query. -/
def summarizedIssues (o : Oracle) (user : String) (si : Issue) :
    Run (List GraphqlIssue) :=
  let qf := queryFilter si.labels
  if qf = ("") then ([], .ok [])
  else searchIssues o (("user:") ++ user ++ (" ") ++ qf)

/-- Models the `issuesWithMatchingLabels` text of `generateIssueSummary`:
plain text for an empty filter, otherwise a markdown link to a live search. -/
def matchingLabelsText (opts : Options) (si : Issue) : String :=
  let qf := queryFilter si.labels
  if qf = ("") then ("issues with matching labels")
  else ("[issues with matching labels](")
    ++ searchURL opts.serverURL (("type:issue user:") ++ opts.user ++ (" ") ++ qf)
    ++ (")")

/-- Models the preamble `Fprintf` of `generateIssueSummary`. -/
def preamble (opts : Options) (si : Issue) : String :=
  if opts.summaryCommentRegex = ("") then
    ("_This is generated from the newest comment on ")
      ++ matchingLabelsText opts si ++ ("._\n")
  else
    ("_This is generated from the newest comment that matches the regular expression `")
      ++ opts.summaryCommentRegex ++ ("` on ") ++ matchingLabelsText opts si ++ ("._\n")

/-- Models the loop body of `generateIssueSummary` for one non-skipped issue:
heading link, then either the selected comment (headings demoted, attribution
appended) or the `_No update_` placeholder. -/
def renderSection (opts : Options) (i : GraphqlIssue) : String :=
  ("## [") ++ i.title ++ ("](") ++ i.url ++ (")\n")
    ++ match lastMatch i.comments opts.matchStr with
       | some c =>
         replaceHeadings c.body ++ ("\n")
           ++ ("\n\n_Updated ") ++ c.updatedAt ++ (" by @") ++ c.author.login ++ ("_\n\n")
       | none => ("_No update_\n")

/-- Models the rendering loop of `generateIssueSummary`: issues whose id
equals the summary issue's id are skipped and contribute nothing. -/
def renderSections (opts : Options) (sid : String) : List GraphqlIssue → String
  | [] => ("")
  | i :: rest =>
    if i.id = sid then renderSections opts sid rest
    else renderSection opts i ++ renderSections opts sid rest

/-- Models the `content` flag of the loop: true iff some issue is not
skipped. -/
def hasContent (sid : String) : List GraphqlIssue → Bool
  | [] => false
  | i :: rest => if i.id = sid then hasContent sid rest else true

/-- Models the pure rendering part of `generateIssueSummary` (everything after
the `summarizedIssues` call). -/
def generateBody (opts : Options) (si : Issue) (issues : List GraphqlIssue) :
    String :=
  preamble opts si
    ++ renderSections opts si.id issues
    ++ (if hasContent si.id issues then ("") else ("\nNo matching issues.\n"))

/-- Models `func generateIssueSummary(opts *options, si issue)`. -/
def generateIssueSummary (o : Oracle) (opts : Options) (si : Issue) :
    Run String :=
  runBind (summarizedIssues o opts.user si)
    (fun issues => ([], .ok (generateBody opts si issues)))

/-- Models `func updateSummaryIssue(opts *options, i issue)`: render the body,
then issue the `updateIssue` mutation. -/
def updateSummaryIssue (o : Oracle) (opts : Options) (i : Issue) : Run Unit :=
  runBind (generateIssueSummary o opts i)
    (fun body => ([Action.update i.id body], o.update i.id body))

/-- Models `issue{id: i.ID, title: i.Title, labels: i.Labels.Nodes}` as built
in `updateSummaryIssues`. -/
def toIssue (i : GraphqlIssue) : Issue :=
  ⟨i.id, i.title, i.labels⟩

/-- Models the loop of `updateSummaryIssues`: every matched summary issue is
regenerated in turn; the first failing update aborts the rest. -/
def updateLoop (o : Oracle) (opts : Options) : List GraphqlIssue → Run Unit
  | [] => ([], .ok ())
  | i :: rest =>
    runBind (updateSummaryIssue o opts (toIssue i)) (fun _ => updateLoop o opts rest)

/-- Models `func updateSummaryIssues(opts *options, labels labels)`. -/
def updateSummaryIssues (o : Oracle) (opts : Options) (ls : List Label) :
    Run Unit :=
  runBind (getSummaryIssues o opts.user ls) (fun issues => updateLoop o opts issues)

/-- Models `func isany(s string, v ...string) bool`. -/
def isany (s : String) : List String → Bool
  | [] => false
  | x :: rest => if s = x then true else isany s rest

/-- Models `issue{id: e.Issue.ID, title: e.Issue.Title, labels: e.Issue.Labels}`
as built in `testableMain`. -/
def restToIssue (r : RestIssue) : Issue :=
  ⟨r.id, r.title, r.labels⟩

/-- Models `func testableMain` after option parsing: the event dispatch.
Logging to stdout is not modelled; the `schedule` case falls through to the
default no-op. -/
def testableMain (o : Oracle) (opts : Options) : Run Unit :=
  let e := opts.event
  if e.name = ("issues") then
    runBind
      (if contains e.issue.labels ("summary")
          && isany e.action [("edited"), ("labeled"), ("unlabeled"), ("opened")] then
        updateSummaryIssue o opts (restToIssue e.issue)
      else ([], .ok ()))
      (fun _ =>
        if e.action = ("labeled") || e.action = ("unlabeled") then
          if e.label.name = ("summary") then ([], .ok ())
          else updateSummaryIssues o opts [e.label]
        else if e.action = ("opened") then
          let ls := nonSummaryLabels e.issue.labels
          if ls = [] then ([], .ok ()) else updateSummaryIssues o opts ls
        else ([], .ok ()))
  else if e.name = ("issue_comment") then
    let ls := nonSummaryLabels e.issue.labels
    if ls = [] then ([], .ok ()) else updateSummaryIssues o opts ls
  else ([], .ok ())

/-! Derived and concrete definitions used by the theorems below. -/

/-- Composition of the two per-line rewrites in the order `replaceHeadings`
applies them: `h2` first, then `h1`. -/
def procLine (l : List Char) : List Char :=
  h1line (h2line l)

/-- Decides whether the first list is a prefix of the second. -/
def startsWithL : List Char → List Char → Bool
  | [], _ => true
  | _ :: _, [] => false
  | a :: as, b :: bs => if a = b then startsWithL as bs else false

/-- Decides whether `needle` occurs contiguously anywhere in the second list;
`regexp.MatchString` for the literal pattern `MATCH` is exactly containment of
that substring. -/
def containsSub (needle : List Char) : List Char → Bool
  | [] => startsWithL needle []
  | b :: rest =>
    if startsWithL needle (b :: rest) then true else containsSub needle rest

/-- Match function of the compiled pattern `MATCH`. -/
def matchMATCH (s : String) : Bool :=
  containsSub ("MATCH".data) s.data

/-- Comment list of the Comment Selector scenario: chronologically ordered
(oldest first) bodies "a", "MATCH-b", "c" at times t1 < t2 < t3. -/
def c1Comments : List Comment :=
  [⟨⟨"u1"⟩, "a", "t1"⟩, ⟨⟨"u2"⟩, "MATCH-b", "t2"⟩, ⟨⟨"u3"⟩, "c", "t3"⟩]

/-- Tests whether an action is an update of the issue with the given id. -/
def isUpdateOf (id : String) : Action → Bool
  | .update i _ => i = id
  | _ => false

/-- Summary issue "I1" carrying both the `summary` marker and the `bug`
label, as the search API returns it. -/
def c8Issue : GraphqlIssue :=
  ⟨"I1", "https://gh/i/1", "T", "", ⟨"a"⟩, [⟨"summary"⟩, ⟨"bug"⟩], []⟩

/-- Event: issue "I1" (a summary issue) was just labeled `bug`. -/
def c8Event : Event :=
  ⟨"issues", "labeled", ⟨"I1", "T", "", ⟨"a"⟩, [⟨"summary"⟩, ⟨"bug"⟩]⟩, ⟨"bug"⟩⟩

def c8Opts : Options :=
  ⟨"u", c8Event, "", fun _ => true, "https://gh"⟩

/-- Endpoint behaviour: the summary-issue query for label `bug` returns issue
"I1" itself; every other search is empty; updates succeed. -/
def c8Oracle : Oracle where
  search q :=
    if q = ("is:open user:u label:summary label:\"bug\"") then .ok [c8Issue] else .ok []
  update _ _ := .ok ()

/-- Summary issue with its own two topic labels `x` and `y` (besides the
`summary` marker), so its full filter is strictly larger than `label:"bug"`. -/
def c7Issue : GraphqlIssue :=
  ⟨"S1", "https://gh/i/2", "S", "", ⟨"a"⟩, [⟨"summary"⟩, ⟨"x"⟩, ⟨"y"⟩], []⟩

/-- Event: a plain source issue (no `summary` label) was labeled `bug`. -/
def c7Event : Event :=
  ⟨"issues", "labeled", ⟨"I2", "T2", "", ⟨"a"⟩, [⟨"bug"⟩]⟩, ⟨"bug"⟩⟩

/-- Event: a plain source issue was labeled with the `summary` marker
itself. -/
def c7EventSum : Event :=
  ⟨"issues", "labeled", ⟨"I2", "T2", "", ⟨"a"⟩, [⟨"bug"⟩]⟩, ⟨"summary"⟩⟩

def c7Opts : Options :=
  ⟨"u", c7Event, "", fun _ => true, "https://gh"⟩

def c7OptsSum : Options :=
  ⟨"u", c7EventSum, "", fun _ => true, "https://gh"⟩

/-- Endpoint behaviour: the summary-issue query for label `bug` returns the
summary issue `c7Issue`; every other search is empty; updates succeed. -/
def c7Oracle : Oracle where
  search q :=
    if q = ("is:open user:u label:summary label:\"bug\"") then .ok [c7Issue] else .ok []
  update _ _ := .ok ()

/-- Summary issue whose only label is the `summary` marker (zero non-summary
labels). -/
def c6Si : Issue :=
  ⟨"S9", "T9", [⟨"summary"⟩]⟩

/-- Source list containing only the summary issue itself, so every entry is
skipped. -/
def c6Issues : List GraphqlIssue :=
  [⟨"S9", "https://gh/i/9", "T9", "", ⟨"a"⟩, [], []⟩]

def c6Event : Event :=
  ⟨"none", "none", ⟨"", "", "", ⟨""⟩, []⟩, ⟨""⟩⟩

def c6Opts : Options :=
  ⟨"u", c6Event, "", fun _ => true, "https://gh"⟩

def c6Oracle : Oracle where
  search _ := .ok []
  update _ _ := .ok ()

/-- Three summary issues returned by the summary-issue query of the error
scenario. -/
def c9I1 : GraphqlIssue :=
  ⟨"S1", "https://gh/i/11", "A", "", ⟨"a"⟩, [⟨"summary"⟩, ⟨"bug"⟩], []⟩

def c9I2 : GraphqlIssue :=
  ⟨"S2", "https://gh/i/12", "B", "", ⟨"a"⟩, [⟨"summary"⟩, ⟨"bug"⟩], []⟩

def c9I3 : GraphqlIssue :=
  ⟨"S3", "https://gh/i/13", "C", "", ⟨"a"⟩, [⟨"summary"⟩, ⟨"bug"⟩], []⟩

def c9Opts : Options :=
  ⟨"u", c6Event, "", fun _ => true, "https://gh"⟩

/-- Endpoint behaviour: the summary-issue query returns three issues and the
update of the second one fails with message "boom". -/
def c9Oracle : Oracle where
  search q :=
    if q = ("is:open user:u label:summary label:\"bug\"") then .ok [c9I1, c9I2, c9I3]
    else .ok []
  update id _ := if id = ("S2") then .error ("boom") else .ok ()

/-- Endpoint behaviour whose searches fail outright. -/
def c9ErrOracle : Oracle where
  search _ := .error ("down")
  update _ _ := .ok ()

/-! Helper lemmas. -/

/-- Scanning a list from the back for the first match equals taking the last
element of the forward filter. -/
theorem reverse_find?_eq {α : Type} (q : α → Bool) :
    ∀ l : List α, l.reverse.find? q = (l.filter q).getLast? := by
  intro l
  induction l with
  | nil => rfl
  | cons a l ih =>
    rw [List.reverse_cons, List.find?_append, ih, List.filter_cons]
    cases hq : q a with
    | true =>
      have h1 : List.find? q [a] = some a := by simp [List.find?, hq]
      rw [h1]
      cases hfil : l.filter q with
      | nil => simp
      | cons b t =>
        rw [if_pos rfl, List.getLast?_cons_cons]
        cases hlast : (b :: t).getLast? with
        | none => simp at hlast
        | some x => simp [Option.or]
    | false =>
      have h1 : List.find? q [a] = none := by simp [List.find?, hq]
      rw [h1, if_neg (by simp)]
      simp [Option.or_none]

/-- Removing the reserved label is a plain filter on the name. -/
theorem nonSummaryLabels_eq_filter (l : List Label) :
    nonSummaryLabels l = l.filter (fun lab => lab.name != ("summary")) := by
  induction l with
  | nil => rfl
  | cons lab rest ih =>
    by_cases h : lab.name = ("summary") <;>
      simp [nonSummaryLabels, List.filter_cons, h, ih]

/-- The filtered label set never reports the reserved name as contained. -/
theorem contains_nonSummaryLabels_false (l : List Label) :
    contains (nonSummaryLabels l) ("summary") = false := by
  induction l with
  | nil => rfl
  | cons lab rest ih =>
    by_cases h : lab.name = ("summary") <;>
      simp [nonSummaryLabels, contains, h, ih]

/-- A string carrying the `label:` key is never empty. -/
theorem label_append_ne_empty (s : String) : (("label:") ++ s) ≠ ("") := by
  intro h
  have h2 := congrArg String.length h
  rw [String.length_append] at h2
  rw [show (("label:" : String)).length = 6 from rfl] at h2
  rw [show (("" : String)).length = 0 from rfl] at h2
  omega

/-- An empty set of non-summary labels yields the empty filter. -/
theorem queryFilter_of_nil (l : List Label) (h : nonSummaryLabels l = []) :
    queryFilter l = ("") := by
  simp [queryFilter, h]

/-- splitLines always produces at least one line. -/
theorem splitLines_ne_nil (s : List Char) : splitLines s ≠ [] := by
  cases s with
  | nil => simp [splitLines]
  | cons c r =>
    simp only [splitLines]
    split
    · simp
    · split <;> simp

/-- No produced line contains a newline character. -/
theorem splitLines_no_newline (s : List Char) :
    ∀ l ∈ splitLines s, ('\n') ∉ l := by
  induction s with
  | nil =>
    intro l hl
    simp [splitLines] at hl
    simp [hl]
  | cons c r ih =>
    intro l hl
    simp only [splitLines] at hl
    by_cases h : c = '\n'
    · rw [if_pos h] at hl
      rcases List.mem_cons.1 hl with h1 | h2
      · simp [h1]
      · exact ih l h2
    · rw [if_neg h] at hl
      cases hs : splitLines r with
      | nil => exact absurd hs (splitLines_ne_nil r)
      | cons t ts =>
        rw [hs] at hl
        rcases List.mem_cons.1 hl with h1 | h2
        · subst h1
          intro hmem
          rcases List.mem_cons.1 hmem with hc | ht
          · exact h hc.symm
          · exact ih t (by rw [hs]; exact List.mem_cons_self t ts) ht
        · exact ih l (by rw [hs]; exact List.mem_cons_of_mem t h2)

/-- A newline-free text is a single line. -/
theorem splitLines_of_no_newline (l : List Char) (h : ('\n') ∉ l) :
    splitLines l = [l] := by
  induction l with
  | nil => rfl
  | cons c r ih =>
    have hc : c ≠ '\n' := by
      intro e
      exact h (by simp [e])
    have hr := ih (fun hm => h (List.mem_cons_of_mem _ hm))
    simp only [splitLines, if_neg hc, hr]

/-- Splitting distributes over an explicit newline after a newline-free
line. -/
theorem splitLines_append_newline (l t : List Char) (h : ('\n') ∉ l) :
    splitLines (l ++ '\n' :: t) = l :: splitLines t := by
  induction l with
  | nil => simp [splitLines]
  | cons c r ih =>
    have hc : c ≠ '\n' := by
      intro e
      exact h (by simp [e])
    have hr := ih (fun hm => h (List.mem_cons_of_mem _ hm))
    simp only [List.cons_append, splitLines, if_neg hc, List.append_eq, hr]

/-- splitLines is a left inverse of joinLines on newline-free lines. -/
theorem splitLines_joinLines (L : List (List Char)) (hne : L ≠ [])
    (h : ∀ l ∈ L, ('\n') ∉ l) : splitLines (joinLines L) = L := by
  induction L with
  | nil => exact absurd rfl hne
  | cons l L ih =>
    cases L with
    | nil => exact splitLines_of_no_newline l (h l (by simp))
    | cons l2 L2 =>
      have hj : joinLines (l :: l2 :: L2) = l ++ '\n' :: joinLines (l2 :: L2) := rfl
      rw [hj, splitLines_append_newline l _ (h l (by simp)),
        ih (by simp) (fun x hx => h x (List.mem_cons_of_mem _ hx))]

/-- h2line either leaves a line alone or rewrites it to a `###` line with a
hash-free rest taken from the line itself. -/
theorem h2line_shape (l : List Char) :
    h2line l = l
    ∨ ∃ r, l.dropWhile isWordChar = '#' :: '#' :: r
        ∧ noHash r = true ∧ h2line l = '#' :: '#' :: '#' :: r := by
  cases hd : l.dropWhile isWordChar with
  | nil => left; simp [h2line, hd]
  | cons c1 rest =>
    cases rest with
    | nil => left; simp [h2line, hd]
    | cons c2 r =>
      by_cases hc : c1 = '#' ∧ c2 = '#' ∧ noHash r = true
      · right
        refine ⟨r, ?_, hc.2.2, ?_⟩
        · rw [hc.1, hc.2.1]
        · simp [h2line, hd, hc]
      · left
        simp [h2line, hd, hc]

/-- h1line either leaves a line alone or rewrites it to a `###` line with a
hash-free rest taken from the line itself. -/
theorem h1line_shape (l : List Char) :
    h1line l = l
    ∨ ∃ r, l.dropWhile isWordChar = '#' :: r
        ∧ noHash r = true ∧ h1line l = '#' :: '#' :: '#' :: r := by
  cases hd : l.dropWhile isWordChar with
  | nil => left; simp [h1line, hd]
  | cons c rest =>
    by_cases hc : c = '#' ∧ noHash rest = true
    · right
      refine ⟨rest, ?_, hc.2, ?_⟩
      · rw [hc.1]
      · simp [h1line, hd, hc]
    · left
      simp [h1line, hd, hc]

/-- A line starting with '#' keeps its word-prefix drop trivial. -/
theorem dropWhile_hashes (r : List Char) :
    ('#' :: r).dropWhile isWordChar = '#' :: r := by
  rw [List.dropWhile_cons, if_neg (by decide : ¬(isWordChar ('#') = true))]

/-- A `###` line is a fixed point of h1line: the rest after its first hash
still contains hashes, so the capture condition fails. -/
theorem h1line_hashes (r : List Char) :
    h1line ('#' :: '#' :: '#' :: r) = '#' :: '#' :: '#' :: r := by
  have hd := dropWhile_hashes ('#' :: '#' :: r)
  simp [h1line, hd, noHash]

/-- A `###` line is a fixed point of h2line. -/
theorem h2line_hashes (r : List Char) :
    h2line ('#' :: '#' :: '#' :: r) = '#' :: '#' :: '#' :: r := by
  have hd := dropWhile_hashes ('#' :: '#' :: r)
  simp [h2line, hd, noHash]

/-- A `###` line is a fixed point of the composed per-line rewrite. -/
theorem procLine_hashes (r : List Char) :
    procLine ('#' :: '#' :: '#' :: r) = '#' :: '#' :: '#' :: r := by
  rw [procLine, h2line_hashes, h1line_hashes]

/-- The composed per-line rewrite is idempotent. -/
theorem procLine_idem (l : List Char) : procLine (procLine l) = procLine l := by
  rcases h2line_shape l with h2e | ⟨r, _, _, h2e⟩
  · rcases h1line_shape l with h1e | ⟨r, _, _, h1e⟩
    · have hp : procLine l = l := by rw [procLine, h2e, h1e]
      rw [hp, hp]
    · have hp : procLine l = '#' :: '#' :: '#' :: r := by rw [procLine, h2e, h1e]
      rw [hp, procLine_hashes]
  · have hp : procLine l = '#' :: '#' :: '#' :: r := by
      rw [procLine, h2e, h1line_hashes]
    rw [hp, procLine_hashes]

/-- h2line introduces no newline. -/
theorem h2line_no_newline (l : List Char) (h : ('\n') ∉ l) :
    ('\n') ∉ h2line l := by
  rcases h2line_shape l with he | ⟨r, hd, _, he⟩
  · rw [he]; exact h
  · rw [he]
    intro hm
    have hr : ('\n') ∈ r := by
      rcases List.mem_cons.1 hm with h1 | hm2
      · exact absurd h1 (by decide)
      rcases List.mem_cons.1 hm2 with h1 | hm3
      · exact absurd h1 (by decide)
      rcases List.mem_cons.1 hm3 with h1 | hm4
      · exact absurd h1 (by decide)
      · exact hm4
    have hdw : ('\n') ∈ l.dropWhile isWordChar := by
      rw [hd]
      exact List.mem_cons_of_mem _ (List.mem_cons_of_mem _ hr)
    exact h ((List.dropWhile_sublist isWordChar).mem hdw)

/-- h1line introduces no newline. -/
theorem h1line_no_newline (l : List Char) (h : ('\n') ∉ l) :
    ('\n') ∉ h1line l := by
  rcases h1line_shape l with he | ⟨r, hd, _, he⟩
  · rw [he]; exact h
  · rw [he]
    intro hm
    have hr : ('\n') ∈ r := by
      rcases List.mem_cons.1 hm with h1 | hm2
      · exact absurd h1 (by decide)
      rcases List.mem_cons.1 hm2 with h1 | hm3
      · exact absurd h1 (by decide)
      rcases List.mem_cons.1 hm3 with h1 | hm4
      · exact absurd h1 (by decide)
      · exact hm4
    have hdw : ('\n') ∈ l.dropWhile isWordChar := by
      rw [hd]
      exact List.mem_cons_of_mem _ hr
    exact h ((List.dropWhile_sublist isWordChar).mem hdw)

/-- The composed per-line rewrite introduces no newline. -/
theorem procLine_no_newline (l : List Char) (h : ('\n') ∉ l) :
    ('\n') ∉ procLine l :=
  h1line_no_newline _ (h2line_no_newline _ h)

/-- The lines of the h2 pass output are exactly the rewritten input lines. -/
theorem h2pass_lines (s : List Char) :
    splitLines (h2pass s) = (splitLines s).map h2line := by
  rw [h2pass]
  refine splitLines_joinLines _ ?_ ?_
  · simpa using splitLines_ne_nil s
  · intro l hl
    rcases List.mem_map.1 hl with ⟨x, hx, rfl⟩
    exact h2line_no_newline x (splitLines_no_newline s x hx)

/-- Both passes together rewrite each line by the composed per-line
rewrite. -/
theorem replaceHeadingsL_lines (s : List Char) :
    replaceHeadingsL s = joinLines ((splitLines s).map procLine) := by
  rw [replaceHeadingsL, h1pass, h2pass_lines, List.map_map]
  rfl

/-- Rewritten lines are newline-free. -/
theorem procLine_lines_no_newline (s : List Char) :
    ∀ l ∈ (splitLines s).map procLine, ('\n') ∉ l := by
  intro l hl
  rcases List.mem_map.1 hl with ⟨x, hx, rfl⟩
  exact procLine_no_newline x (splitLines_no_newline s x hx)

/-- Idempotence at the character-list level. -/
theorem replaceHeadingsL_idem (s : List Char) :
    replaceHeadingsL (replaceHeadingsL s) = replaceHeadingsL s := by
  rw [replaceHeadingsL_lines s,
    replaceHeadingsL_lines (joinLines ((splitLines s).map procLine))]
  rw [splitLines_joinLines ((splitLines s).map procLine)
      (by simpa using splitLines_ne_nil s) (procLine_lines_no_newline s)]
  rw [List.map_map]
  have h : (splitLines s).map (procLine ∘ procLine) = (splitLines s).map procLine :=
    List.map_congr_left (fun a _ => procLine_idem a)
  rw [h]

/-- Filtering out the summary issue's own id does not change the rendered
sections: the loop skips those entries anyway. -/
theorem renderSections_filter (opts : Options) (sid : String)
    (issues : List GraphqlIssue) :
    renderSections opts sid (issues.filter (fun i => ! (i.id == sid))) =
      renderSections opts sid issues := by
  induction issues with
  | nil => rfl
  | cons i rest ih =>
    by_cases h : i.id = sid <;>
      simp [List.filter_cons, renderSections, h, ih]

/-- Filtering out the summary issue's own id does not change the content
flag. -/
theorem hasContent_filter (sid : String) (issues : List GraphqlIssue) :
    hasContent sid (issues.filter (fun i => ! (i.id == sid))) =
      hasContent sid issues := by
  induction issues with
  | nil => rfl
  | cons i rest ih =>
    by_cases h : i.id = sid <;>
      simp [List.filter_cons, hasContent, h, ih]

/-- When every issue is skipped the loop renders nothing. -/
theorem renderSections_of_no_content (opts : Options) (sid : String)
    (issues : List GraphqlIssue) (h : hasContent sid issues = false) :
    renderSections opts sid issues = ("") := by
  induction issues with
  | nil => rfl
  | cons i rest ih =>
    by_cases hi : i.id = sid
    · rw [hasContent, if_pos hi] at h
      rw [renderSections, if_pos hi]
      exact ih h
    · rw [hasContent, if_neg hi] at h
      exact absurd h (by simp)

/-- A bound step always begins with the trace of its first part. -/
theorem runBind_log {α β : Type} (a : Run α) (f : α → Run β) :
    ∃ rest res, runBind a f = (a.1 ++ rest, res) := by
  rcases a with ⟨lg, r⟩
  cases r with
  | error e => exact ⟨[], .error e, by simp [runBind]⟩
  | ok v => exact ⟨(f v).1, (f v).2, by simp [runBind]⟩

/-- The update loop on a list whose updates succeed up to a failing issue
stops at the failure: the trace holds the successful updates' calls plus the
failing issue's calls, and the error is returned unchanged. -/
theorem updateLoop_error_point (o : Oracle) (opts : Options)
    (pre : List GraphqlIssue) (i : GraphqlIssue) (post : List GraphqlIssue)
    (e : String)
    (hpre : ∀ j ∈ pre, (updateSummaryIssue o opts (toIssue j)).2 = .ok ())
    (hi : (updateSummaryIssue o opts (toIssue i)).2 = .error e) :
    updateLoop o opts (pre ++ i :: post) =
      ((pre.map (fun j => (updateSummaryIssue o opts (toIssue j)).1)).flatten
         ++ (updateSummaryIssue o opts (toIssue i)).1,
       .error e) := by
  induction pre with
  | nil =>
    simp [updateLoop, runBind, hi]
  | cons j pre ih =>
    have hj := hpre j (by simp)
    have ih2 := ih (fun x hx => hpre x (by simp [hx]))
    simp [updateLoop, runBind, hj, ih2]

/-! Claim theorems. -/

/-- C1: for every comment list (given oldest first) and every match function,
`lastMatch` returns the most recent comment whose body matches — the last
element of the filtered list — returns the overall newest comment when the
pattern is empty (matches everything), returns none on the empty list, and on
bodies "a", "MATCH-b", "c" with pattern `MATCH` returns the middle comment,
not the last one. -/
theorem C1_comment_selector (m : String → Bool) (cs : List Comment) :
    lastMatch cs m = (cs.filter (fun c => m c.body)).getLast?
    ∧ lastMatch cs (fun _ => true) = cs.getLast?
    ∧ lastMatch ([] : List Comment) m = none
    ∧ lastMatch c1Comments matchMATCH = some ⟨⟨"u2"⟩, "MATCH-b", "t2"⟩ := by
  refine ⟨?_, ?_, rfl, by decide⟩
  · rw [lastMatch]
    exact reverse_find?_eq (fun c => m c.body) cs
  · have h := reverse_find?_eq (fun _ => true) cs
    rw [lastMatch, h, List.filter_true]

/-- C2 (code bug): `replaceHeadings` is specified (and documented in the
source) to demote exactly the lines that are level-1 or level-2 markdown
headings and leave every other line unchanged, but the `\w*` in the patterns
makes the non-heading line "abc# x" collapse to "### x", and a heading line
that contains a later '#' (such as "# a #b") is not rewritten at all; the
spec's own positive example does hold. -/
theorem C2_heading_normalizer_eval :
    replaceHeadings ("abc# x") = ("### x")
    ∧ replaceHeadings ("# a #b") = ("# a #b")
    ∧ replaceHeadings ("# Title\ntext\n## Sub") = ("### Title\ntext\n### Sub") := by
  refine ⟨?_, ?_, ?_⟩ <;> decide

/-- C3 (counterexample): with the duplicated label set [a, a] the rendered
filter is `label:"a","a"`, so the non-summary label name "a" appears twice,
not exactly once as the claim states. -/
theorem C3_queryFilter_cex :
    queryFilter [⟨"a"⟩, ⟨"a"⟩] = ("label:\"a\",\"a\"")
    ∧ ((nonSummaryLabels [⟨"a"⟩, ⟨"a"⟩]).map (fun lab => goQuote lab.name)).count
        (goQuote ("a")) = 2 := by
  refine ⟨?_, ?_⟩ <;> decide

/-- C3 (amended): `queryFilter` is empty exactly when there are no non-summary
labels; otherwise it is `label:` followed by the comma-joined quoted names of
`nonSummaryLabels`, one entry per occurrence, in their stable order. -/
theorem C3_queryFilter_amended (l : List Label) :
    (queryFilter l = ("") ↔ nonSummaryLabels l = [])
    ∧ (nonSummaryLabels l ≠ [] →
        queryFilter l =
          ("label:") ++ String.intercalate (",")
            ((nonSummaryLabels l).map (fun lab => goQuote lab.name))) := by
  constructor
  · constructor
    · intro h
      by_contra hne
      have hls : (nonSummaryLabels l).map (fun lab => goQuote lab.name) ≠ [] := by
        simpa using hne
      rw [queryFilter] at h
      rw [if_neg hls] at h
      exact label_append_ne_empty _ h
    · intro h
      simp [queryFilter, h]
  · intro h
    have hls : (nonSummaryLabels l).map (fun lab => goQuote lab.name) ≠ [] := by
      simpa using h
    rw [queryFilter, if_neg hls]

/-- C3 (witness): the amended statement evaluated at the two-label set
[a, b]. -/
theorem C3_queryFilter_amended_witness :
    (queryFilter [⟨"a"⟩, ⟨"b"⟩] = ("") ↔ nonSummaryLabels [⟨"a"⟩, ⟨"b"⟩] = [])
    ∧ queryFilter [⟨"a"⟩, ⟨"b"⟩] =
        ("label:") ++ String.intercalate (",")
          ((nonSummaryLabels [⟨"a"⟩, ⟨"b"⟩]).map (fun lab => goQuote lab.name)) := by
  have h := C3_queryFilter_amended [⟨"a"⟩, ⟨"b"⟩]
  exact ⟨h.1, h.2 (by decide)⟩

/-- C4: `nonSummaryLabels` never contains a label named "summary" and equals
the order-preserving filter of the input by that condition. -/
theorem C4_nonSummaryLabels (l : List Label) :
    (∀ lab ∈ nonSummaryLabels l, lab.name ≠ ("summary"))
    ∧ contains (nonSummaryLabels l) ("summary") = false
    ∧ nonSummaryLabels l = l.filter (fun lab => lab.name != ("summary")) := by
  refine ⟨?_, contains_nonSummaryLabels_false l, nonSummaryLabels_eq_filter l⟩
  intro lab hmem
  rw [nonSummaryLabels_eq_filter] at hmem
  have h := List.of_mem_filter hmem
  simpa using h

/-- C4 (witness): the statement evaluated at the set [a, summary] and the
member a. -/
theorem C4_nonSummaryLabels_witness :
    (⟨"a"⟩ : Label).name ≠ ("summary")
    ∧ contains (nonSummaryLabels [⟨"a"⟩, ⟨"summary"⟩]) ("summary") = false
    ∧ nonSummaryLabels [⟨"a"⟩, ⟨"summary"⟩] =
        [(⟨"a"⟩ : Label), ⟨"summary"⟩].filter (fun lab => lab.name != ("summary")) := by
  have h := C4_nonSummaryLabels [⟨"a"⟩, ⟨"summary"⟩]
  exact ⟨h.1 ⟨"a"⟩ (by decide), h.2.1, h.2.2⟩

/-- C5: the rendered body never contains a section for an issue whose id
equals the summary issue's own id — removing those entries from the matched
list changes nothing — while the source-issue query built by
`summarizedIssues` does not depend on the summary issue's id at all, so the
issue is not excluded from the query itself. -/
theorem C5_self_exclusion (opts : Options) (si : Issue)
    (issues : List GraphqlIssue) :
    generateBody opts si issues =
      generateBody opts si (issues.filter (fun i => ! (i.id == si.id)))
    ∧ (∀ (o : Oracle) (user id1 id2 t : String) (ls : List Label),
        summarizedIssues o user ⟨id1, t, ls⟩ = summarizedIssues o user ⟨id2, t, ls⟩) := by
  constructor
  · rw [generateBody, generateBody, renderSections_filter, hasContent_filter]
  · intro o user id1 id2 t ls
    rfl

/-- C6: with zero non-summary labels `generateIssueSummary` issues no search
(the trace is empty) and renders the preamble followed by the
"No matching issues." line; the same empty-result body is produced whenever
every source issue is skipped or the list is empty; and with an empty filter
the preamble text has no search link. -/
theorem C6_empty_result (o : Oracle) (opts : Options) (si : Issue)
    (issues : List GraphqlIssue)
    (h : nonSummaryLabels si.labels = [])
    (h2 : hasContent si.id issues = false) :
    generateIssueSummary o opts si =
      ([], .ok (preamble opts si ++ ("\nNo matching issues.\n")))
    ∧ generateBody opts si issues = preamble opts si ++ ("\nNo matching issues.\n")
    ∧ matchingLabelsText opts si = ("issues with matching labels") := by
  refine ⟨?_, ?_, ?_⟩
  · rw [generateIssueSummary, summarizedIssues]
    rw [queryFilter_of_nil _ h]
    simp [runBind, generateBody, renderSections, hasContent, String.append_empty]
  · rw [generateBody, renderSections_of_no_content opts si.id issues h2, h2]
    simp [String.append_empty]
  · rw [matchingLabelsText, queryFilter_of_nil _ h]
    simp

/-- C6 (witness): the statement evaluated on a summary issue whose only label
is the marker and a source list containing only the issue itself. -/
theorem C6_empty_result_witness :
    generateIssueSummary c6Oracle c6Opts c6Si =
      ([], .ok (preamble c6Opts c6Si ++ ("\nNo matching issues.\n")))
    ∧ generateBody c6Opts c6Si c6Issues =
        preamble c6Opts c6Si ++ ("\nNo matching issues.\n")
    ∧ matchingLabelsText c6Opts c6Si = ("issues with matching labels") :=
  C6_empty_result c6Oracle c6Opts c6Si c6Issues rfl rfl

/-- C7: an `issues`/`labeled` event whose changed label is `bug` (on an issue
without the `summary` marker) makes the run search
`is:open user:<owner> label:summary label:"bug"` and then regenerate every
returned summary issue through the update loop, each regeneration querying
with that issue's own full non-summary-label filter; if the changed label is
itself named `summary`, the run performs no call at all. -/
theorem C7_label_cascade (o : Oracle) (opts opts2 : Options)
    (sis : List GraphqlIssue)
    (hn : opts.event.name = ("issues"))
    (ha : opts.event.action = ("labeled"))
    (hl : opts.event.label = ⟨"bug"⟩)
    (hs : contains opts.event.issue.labels ("summary") = false)
    (hok : o.search (summaryQuery opts.user [⟨"bug"⟩]) = .ok sis)
    (hn2 : opts2.event.name = ("issues"))
    (ha2 : opts2.event.action = ("labeled"))
    (hl2 : opts2.event.label.name = ("summary"))
    (hs2 : contains opts2.event.issue.labels ("summary") = false) :
    testableMain o opts =
      (Action.search (summaryQuery opts.user [⟨"bug"⟩]) :: (updateLoop o opts sis).1,
       (updateLoop o opts sis).2)
    ∧ (∀ si : GraphqlIssue, queryFilter si.labels ≠ ("") →
        (updateSummaryIssue o opts (toIssue si)).1.take 1 =
          [Action.search (("user:") ++ opts.user ++ (" ") ++ queryFilter si.labels)])
    ∧ testableMain o opts2 = ([], .ok ()) := by
  refine ⟨?_, ?_, ?_⟩
  · rw [testableMain]
    simp only [hn, hs, ha, hl, Bool.false_and, if_pos rfl]
    simp [runBind, updateSummaryIssues, getSummaryIssues, hok]
  · intro si hqf
    rw [updateSummaryIssue, generateIssueSummary, summarizedIssues]
    rw [toIssue]
    rw [if_neg hqf]
    cases hv : o.search (("user:") ++ opts.user ++ (" ") ++ queryFilter si.labels) <;>
      simp [runBind, searchIssues, hv]
  · rw [testableMain]
    simp only [hn2, hs2, ha2, hl2, Bool.false_and, if_pos rfl]
    simp [runBind]

/-- C7 (witness): the statement evaluated with a concrete endpoint returning
one summary issue whose own filter is `label:"x","y"`, strictly larger than
`label:"bug"`. -/
theorem C7_label_cascade_witness :
    (testableMain c7Oracle c7Opts =
      (Action.search (summaryQuery ("u") [⟨"bug"⟩]) :: (updateLoop c7Oracle c7Opts [c7Issue]).1,
       (updateLoop c7Oracle c7Opts [c7Issue]).2))
    ∧ ((updateSummaryIssue c7Oracle c7Opts (toIssue c7Issue)).1.take 1 =
        [Action.search (("user:") ++ ("u") ++ (" ") ++ queryFilter c7Issue.labels)])
    ∧ testableMain c7Oracle c7OptsSum = ([], .ok ()) := by
  have h := C7_label_cascade c7Oracle c7Opts c7OptsSum [c7Issue]
    rfl rfl rfl rfl rfl rfl rfl rfl rfl
  exact ⟨h.1, h.2.1 c7Issue (by decide), h.2.2⟩

/-- C8 (counterexample): when the event issue is itself a summary issue that
just received the label `bug` and the summary-issue search returns it, the
run updates its body twice — once in the direct branch and once in the label
cascade — so "no summary issue's body is updated more than once per run" is
false. -/
theorem C8_double_update_cex :
    ((testableMain c8Oracle c8Opts).1.countP (isUpdateOf ("I1"))) = 2 := by
  decide

/-- C8 (amended): the direct update does run first — the run's trace begins
with the calls of `updateSummaryIssue` applied to the event issue with its
own current payload labels, before any cascade call — but a summary issue
matched by both branches is regenerated again by the cascade. -/
theorem C8_direct_update_first (o : Oracle) (opts : Options)
    (hn : opts.event.name = ("issues"))
    (hc : contains opts.event.issue.labels ("summary") = true)
    (ha : isany opts.event.action [("edited"), ("labeled"), ("unlabeled"), ("opened")] = true) :
    ∃ (rest : List Action) (res : Except String Unit),
      testableMain o opts =
        ((updateSummaryIssue o opts (restToIssue opts.event.issue)).1 ++ rest, res) := by
  rw [testableMain]
  simp only [hn, hc, ha, Bool.true_and, if_pos rfl]
  exact runBind_log _ _

/-- C8 (witness): the amended statement evaluated at the double-update
scenario. -/
theorem C8_direct_update_first_witness :
    ∃ (rest : List Action) (res : Except String Unit),
      testableMain c8Oracle c8Opts =
        ((updateSummaryIssue c8Oracle c8Opts (restToIssue c8Opts.event.issue)).1 ++ rest, res) :=
  C8_direct_update_first c8Oracle c8Opts rfl rfl rfl

/-- C9: when the update of one matched summary issue fails, the whole run
returns that error unmodified, the trace keeps the updates issued before the
failure point, and no call for any later issue appears; when the summary-issue
search itself fails, the error is likewise returned with no update at all. -/
theorem C9_error_propagation (o o2 : Oracle) (opts : Options) (ls : List Label)
    (pre : List GraphqlIssue) (i : GraphqlIssue) (post : List GraphqlIssue)
    (e e2 : String)
    (hok : o.search (summaryQuery opts.user ls) = .ok (pre ++ i :: post))
    (hpre : ∀ j ∈ pre, (updateSummaryIssue o opts (toIssue j)).2 = .ok ())
    (hi : (updateSummaryIssue o opts (toIssue i)).2 = .error e)
    (herr : o2.search (summaryQuery opts.user ls) = .error e2) :
    updateSummaryIssues o opts ls =
      (Action.search (summaryQuery opts.user ls)
         :: ((pre.map (fun j => (updateSummaryIssue o opts (toIssue j)).1)).flatten
              ++ (updateSummaryIssue o opts (toIssue i)).1),
       .error e)
    ∧ updateSummaryIssues o2 opts ls =
        ([Action.search (summaryQuery opts.user ls)], .error e2) := by
  constructor
  · simp [updateSummaryIssues, getSummaryIssues, runBind, hok,
      updateLoop_error_point o opts pre i post e hpre hi]
  · simp [updateSummaryIssues, getSummaryIssues, runBind, herr]

/-- C9 (witness): the statement evaluated on three matched summary issues
where the second one's update fails with "boom" and on an endpoint whose
search fails with "down". -/
theorem C9_error_propagation_witness :
    updateSummaryIssues c9Oracle c9Opts [⟨"bug"⟩] =
      (Action.search (summaryQuery ("u") [⟨"bug"⟩])
         :: (([c9I1].map (fun j => (updateSummaryIssue c9Oracle c9Opts (toIssue j)).1)).flatten
              ++ (updateSummaryIssue c9Oracle c9Opts (toIssue c9I2)).1),
       .error ("boom"))
    ∧ updateSummaryIssues c9ErrOracle c9Opts [⟨"bug"⟩] =
        ([Action.search (summaryQuery ("u") [⟨"bug"⟩])], .error ("down")) :=
  C9_error_propagation c9Oracle c9ErrOracle c9Opts [⟨"bug"⟩] [c9I1] c9I2 [c9I3]
    ("boom") ("down") rfl
    (by
      intro j hj
      rw [List.mem_singleton] at hj
      subst hj
      rfl)
    rfl rfl

/-- C10: the Heading Normalizer is idempotent — the `###` lines it produces
are never rewritten by a second pass, and untouched lines stay untouched. -/
theorem C10_heading_normalizer_idempotent (s : String) :
    replaceHeadings (replaceHeadings s) = replaceHeadings s := by
  show (⟨replaceHeadingsL (replaceHeadingsL s.data)⟩ : String) = ⟨replaceHeadingsL s.data⟩
  exact congrArg String.mk (replaceHeadingsL_idem s.data)

end Summary
